import Mathlib

/-!
# Verification of the weather-aggregator security subsystem

A shallow embedding, in Lean 4, of the security subsystem of the
weather-aggregator-api repository:

* `IPBanManager` (src/security/middleware/ipBan.js): the suspicion/ban
  tables and the operations `banIP`, `unbanIP`, `isBanned`, `getBanInfo`,
  `recordSuspiciousActivity`, `cleanExpiredBans`, `getAllBanned`.
* `detectThreats` (src/security/utils/threatDetection.js): the pattern-table
  threat detector, with the mutable `lastIndex` of JavaScript global regexes
  modelled explicitly.
* `SecurityAnalytics` (src/security/monitoring/analytics.js): the bounded
  timeline ring buffer fed by `recordRequest` and read by `getRecentEvents`.
* The `POST /api/security/ban` route handler
  (src/security/routes/securityRoutes.js).

JavaScript timestamps (`Date.now()`, `new Date()`) are modelled as natural
numbers counting milliseconds; every operation that reads the clock takes
the current time as an explicit `now : Nat` argument.  Durations are
modelled as `Int` minutes because the code can receive negative durations.
Asynchronous persistence (`saveBannedIPs`) and logging only perform I/O and
never touch the in-memory maps, so they are omitted; the synchronous prefix
of the `async` JavaScript functions (everything before the first `await`),
which performs all map mutations, is what the definitions below embed.
-/

/-! ## JavaScript `Map` as an association list

`Map.get`/`Map.set`/`Map.delete` keyed by strings.  A JavaScript `Map`
never holds a key twice; `set` of an existing key updates it in place and
`delete` removes it, which on duplicate-free association lists is exactly
the behaviour of the definitions below. -/

/-- `Map.prototype.get`: the value stored at `k`, if any. -/
def mapGet {α : Type} : List (String × α) → String → Option α
  | [], _ => none
  | (k, v) :: rest, key => if k = key then some v else mapGet rest key

/-- `Map.prototype.set`: update `k` in place if present, else append. -/
def mapSet {α : Type} : List (String × α) → String → α → List (String × α)
  | [], key, v => [(key, v)]
  | (k, w) :: rest, key, v =>
      if k = key then (k, v) :: rest else (k, w) :: mapSet rest key v

/-- `Map.prototype.delete`: drop the entry stored at `k`. -/
def mapDelete {α : Type} (m : List (String × α)) (key : String) : List (String × α) :=
  m.filter (fun e => !(e.1 = key : Bool))

/-! ## IPBanManager (src/security/middleware/ipBan.js) -/

/-- One entry of `bannedIPs`: `{ reason, bannedAt, expiresAt, attempts }`.
`expiresAt = none` models the JavaScript `null` (permanent ban). -/
structure BanInfo where
  reason : String
  bannedAt : Nat
  expiresAt : Option Nat
  attempts : Nat
deriving Repr, DecidableEq

/-- One timeline item of a suspicion record's `threats` array:
`{ type: threatType, timestamp: now }`. -/
structure ThreatMark where
  type : String
  timestamp : Nat
deriving Repr, DecidableEq

/-- One entry of `suspiciousIPs`:
`{ attempts, lastAttempt, score, threats }`. -/
structure SuspiciousInfo where
  attempts : Nat
  lastAttempt : Nat
  score : Nat
  threats : List ThreatMark
deriving Repr, DecidableEq

/-- The in-memory state of the `IPBanManager` class: the two maps
`bannedIPs` and `suspiciousIPs`. -/
structure IPBanManager where
  bannedIPs : List (String × BanInfo)
  suspiciousIPs : List (String × SuspiciousInfo)
deriving Repr, DecidableEq

/-- The state of a freshly constructed manager (both maps empty; the
constructor's load step finds no persistence file). -/
def emptyManager : IPBanManager := ⟨[], []⟩

/-- `banIP(ip, reason, duration = 0)`: build the ban record, insert it into
`bannedIPs`, remove `ip` from `suspiciousIPs`, return the record.
`expiresAt` is `new Date(Date.now() + duration * 60000)` when
`duration > 0` and `null` otherwise. -/
def banIP (m : IPBanManager) (ip reason : String) (duration : Int) (now : Nat) :
    BanInfo × IPBanManager :=
  let expiresAt : Option Nat := if 0 < duration then some (now + duration.toNat * 60000) else none
  let banInfo : BanInfo :=
    { reason := reason
      bannedAt := now
      expiresAt := expiresAt
      attempts := (match mapGet m.suspiciousIPs ip with
                   | some s => s.attempts
                   | none => 0) + 1 }
  (banInfo,
   { bannedIPs := mapSet m.bannedIPs ip banInfo
     suspiciousIPs := mapDelete m.suspiciousIPs ip })

/-- `unbanIP(ip)`: delete the ban record if present, returning whether one
was deleted. -/
def unbanIP (m : IPBanManager) (ip : String) : Bool × IPBanManager :=
  if (mapGet m.bannedIPs ip).isSome then
    (true, { m with bannedIPs := mapDelete m.bannedIPs ip })
  else
    (false, m)

/-- `isBanned(ip)`: `false` when no record exists; when the record has an
`expiresAt` strictly in the past the code calls `unbanIP(ip)` (lazy expiry)
and returns `false`; otherwise `true`. -/
def isBanned (m : IPBanManager) (ip : String) (now : Nat) : Bool × IPBanManager :=
  match mapGet m.bannedIPs ip with
  | none => (false, m)
  | some banInfo =>
      match banInfo.expiresAt with
      | some e => if e < now then (false, (unbanIP m ip).snd) else (true, m)
      | none => (true, m)

/-- `getBanInfo(ip)`: `bannedIPs.get(ip) || null`. -/
def getBanInfo (m : IPBanManager) (ip : String) : Option BanInfo :=
  mapGet m.bannedIPs ip

/-- The `threatScores` table of `recordSuspiciousActivity`, with the
`|| 15` fallback for a type outside the table (every table value is a
truthy number, so the fallback fires exactly on missing keys). -/
def threatScore (threatType : String) : Nat :=
  if threatType = "sql_injection" then 50
  else if threatType = "xss" then 40
  else if threatType = "path_traversal" then 45
  else if threatType = "rate_limit" then 10
  else if threatType = "invalid_input" then 5
  else if threatType = "unknown" then 15
  else 15

/-- `recordSuspiciousActivity(ip, threatType)`: fetch or create the
suspicion record, increment `attempts`, refresh `lastAttempt`, append to
`threats`, add the type's weight to `score`, store it back; when the new
`score ≥ 300` or the new `attempts ≥ 20` the code calls `banIP` with a
60-minute duration and returns `true`, else `false`. -/
def recordSuspiciousActivity (m : IPBanManager) (ip threatType : String) (now : Nat) :
    Bool × IPBanManager :=
  let suspicious :=
    (mapGet m.suspiciousIPs ip).getD
      { attempts := 0, lastAttempt := now, score := 0, threats := [] }
  let updated : SuspiciousInfo :=
    { attempts := suspicious.attempts + 1
      lastAttempt := now
      score := suspicious.score + threatScore threatType
      threats := suspicious.threats ++ [⟨threatType, now⟩] }
  let m1 : IPBanManager := { m with suspiciousIPs := mapSet m.suspiciousIPs ip updated }
  if 300 ≤ updated.score ∨ 20 ≤ updated.attempts then
    (true,
     (banIP m1 ip
        ("Automatic ban: " ++ toString updated.attempts ++
          " suspicious attempts (score: " ++ toString updated.score ++ ")")
        60 now).snd)
  else
    (false, m1)

/-- `cleanExpiredBans()`: drop every ban whose `expiresAt` is strictly in
the past, and every suspicion record whose `lastAttempt` is more than one
hour old. -/
def cleanExpiredBans (m : IPBanManager) (now : Nat) : IPBanManager :=
  { bannedIPs :=
      m.bannedIPs.filter (fun e =>
        match e.2.expiresAt with
        | some ex => !(ex < now : Bool)
        | none => true)
    suspiciousIPs :=
      m.suspiciousIPs.filter (fun e =>
        !((e.2.lastAttempt : Int) < (now : Int) - 3600000 : Bool)) }

/-- `getAllBanned()`: the entries of `bannedIPs` (the JavaScript version
spreads each record into an object beside its ip; the pair carries the same
data). -/
def getAllBanned (m : IPBanManager) : List (String × BanInfo) :=
  m.bannedIPs

/-- `getAllSuspicious()`: the entries of `suspiciousIPs`. -/
def getAllSuspicious (m : IPBanManager) : List (String × SuspiciousInfo) :=
  m.suspiciousIPs

example :
    (recordSuspiciousActivity emptyManager "10.0.0.1" "invalid_input" 0).fst = false := by
  decide

example :
    (banIP emptyManager "9.9.9.9" "manual" 0 5).fst.expiresAt = none := by
  decide

example :
    (isBanned (banIP emptyManager "1.2.3.4" "manual" 60 0).snd "1.2.3.4" 3600001).fst
      = false := by
  decide

/-! ## Lemmas about the `Map` model -/

theorem mapGet_set_self {α : Type} (m : List (String × α)) (k : String) (v : α) :
    mapGet (mapSet m k v) k = some v := by
  induction m with
  | nil => simp [mapSet, mapGet]
  | cons e rest ih =>
    obtain ⟨q, w⟩ := e
    by_cases h : q = k <;> simp [mapSet, mapGet, h, ih]

theorem mapGet_set_ne {α : Type} (m : List (String × α)) (k q : String) (v : α)
    (h : q ≠ k) : mapGet (mapSet m k v) q = mapGet m q := by
  have hk : k ≠ q := Ne.symm h
  induction m with
  | nil => simp [mapSet, mapGet, hk]
  | cons e rest ih =>
    obtain ⟨p, w⟩ := e
    by_cases hp : p = k
    · subst hp
      simp [mapSet, mapGet, hk]
    · simp [mapSet, mapGet, hp, ih]

theorem mapGet_delete_self {α : Type} (m : List (String × α)) (k : String) :
    mapGet (mapDelete m k) k = none := by
  induction m with
  | nil => simp [mapDelete, mapGet]
  | cons e rest ih =>
    obtain ⟨p, w⟩ := e
    by_cases hp : p = k <;>
      simp_all [mapDelete, mapGet, List.filter]

theorem mapGet_delete_ne {α : Type} (m : List (String × α)) (k q : String)
    (h : q ≠ k) : mapGet (mapDelete m k) q = mapGet m q := by
  have hk : k ≠ q := Ne.symm h
  induction m with
  | nil => simp [mapDelete, mapGet]
  | cons e rest ih =>
    obtain ⟨p, w⟩ := e
    by_cases hp : p = k
    · subst hp
      simp_all [mapDelete, mapGet, List.filter]
    · by_cases hq : p = q <;> simp_all [mapDelete, mapGet, List.filter]

theorem mapGet_filter_none {α : Type} (m : List (String × α)) (k : String)
    (p : String × α → Bool) (h : mapGet m k = none) :
    mapGet (m.filter p) k = none := by
  induction m with
  | nil => simp [mapGet]
  | cons e rest ih =>
    obtain ⟨q, w⟩ := e
    by_cases hq : q = k
    · simp [mapGet, hq] at h
    · simp only [mapGet, hq, if_false, List.filter] at h ⊢
      cases hpe : p (q, w) <;> simp [mapGet, hq, ih h]

theorem threatScore_pos (threatType : String) : 0 < threatScore threatType := by
  unfold threatScore
  split_ifs <;> decide

/-! ## Claim theorems: ban creation, unban, expiry, scoring -/

/-- C5: `ban(id, reason, 0)` creates a record with `expiresAt = null`
(permanent), `ban(id, reason, D)` with `D > 0` one with
`expiresAt = now + D` minutes, and `getBanInfo(id)` immediately after
returns that record. -/
theorem banIP_expiry_spec (m : IPBanManager) (ip reason : String) (now : Nat) (D : Int) :
    ((banIP m ip reason 0 now).fst.expiresAt = none ∧
      getBanInfo (banIP m ip reason 0 now).snd ip = some (banIP m ip reason 0 now).fst) ∧
    (0 < D →
      (banIP m ip reason D now).fst.expiresAt = some (now + D.toNat * 60000) ∧
      getBanInfo (banIP m ip reason D now).snd ip = some (banIP m ip reason D now).fst) := by
  constructor
  · constructor
    · simp [banIP]
    · simp [banIP, getBanInfo, mapGet_set_self]
  · intro hD
    constructor
    · simp [banIP, hD]
    · simp [banIP, getBanInfo, mapGet_set_self]

/-- C6: `unban(id)` returns true iff a ban record existed (and removes it),
is a total no-op returning false on a non-banned id, and is always followed
by `isBanned(id) = false`; being a total function it never raises. -/
theorem unbanIP_spec (m : IPBanManager) (ip : String) (now : Nat) :
    ((unbanIP m ip).fst = true ↔ (mapGet m.bannedIPs ip).isSome = true) ∧
    mapGet ((unbanIP m ip).snd).bannedIPs ip = none ∧
    (isBanned ((unbanIP m ip).snd) ip now).fst = false := by
  unfold unbanIP
  by_cases h : (mapGet m.bannedIPs ip).isSome = true
  · simp only [if_pos h]
    refine ⟨by simp [h], mapGet_delete_self m.bannedIPs ip, ?_⟩
    simp [isBanned, mapGet_delete_self]
  · have hn : mapGet m.bannedIPs ip = none := by
      cases hg : mapGet m.bannedIPs ip
      · rfl
      · exact absurd (by simp [hg]) h
    simp [if_neg h, hn, isBanned]

/-- C10 (implicit): `banIP` with a negative duration behaves exactly like
duration 0: the `duration > 0` test fails, so `expiresAt` is `null` and the
ban is permanent, not already-expired or an error. -/
theorem banIP_negative_duration_permanent (m : IPBanManager) (ip reason : String)
    (now : Nat) (D : Int) (hD : D < 0) :
    banIP m ip reason D now = banIP m ip reason 0 now ∧
    (banIP m ip reason D now).fst.expiresAt = none := by
  have h1 : ¬(0 < D) := by omega
  constructor <;> simp [banIP, h1]

/-- Witness for `banIP_negative_duration_permanent` at duration `-5`. -/
theorem banIP_negative_duration_permanent_witness :
    banIP emptyManager "1.2.3.4" "manual" (-5) 7 = banIP emptyManager "1.2.3.4" "manual" 0 7 ∧
    (banIP emptyManager "1.2.3.4" "manual" (-5) 7).fst.expiresAt = none :=
  banIP_negative_duration_permanent emptyManager "1.2.3.4" "manual" 7 (-5) (by decide)

/-- C7: for a fixed id and type, each `recordSuspiciousActivity` call that
does not ban stores a record whose score is the previous score plus the
type's positive weight, so the score strictly increases call to call; the
call that bans removes the suspicion record (promotion clears it). -/
theorem suspicion_score_monotonic (m : IPBanManager) (ip threatType : String) (now : Nat) :
    ((recordSuspiciousActivity m ip threatType now).fst = false →
      ∃ s₁,
        mapGet ((recordSuspiciousActivity m ip threatType now).snd).suspiciousIPs ip = some s₁ ∧
        s₁.score =
          ((mapGet m.suspiciousIPs ip).getD
              { attempts := 0, lastAttempt := now, score := 0, threats := [] }).score +
            threatScore threatType ∧
        ((mapGet m.suspiciousIPs ip).getD
            { attempts := 0, lastAttempt := now, score := 0, threats := [] }).score <
          s₁.score) ∧
    ((recordSuspiciousActivity m ip threatType now).fst = true →
      mapGet ((recordSuspiciousActivity m ip threatType now).snd).suspiciousIPs ip = none) := by
  unfold recordSuspiciousActivity
  by_cases hc :
      300 ≤
          ((mapGet m.suspiciousIPs ip).getD
              { attempts := 0, lastAttempt := now, score := 0, threats := [] }).score +
            threatScore threatType ∨
        20 ≤
          ((mapGet m.suspiciousIPs ip).getD
              { attempts := 0, lastAttempt := now, score := 0, threats := [] }).attempts + 1
  · simp only [if_pos hc]
    refine ⟨by simp, fun _ => ?_⟩
    simp [banIP, mapGet_delete_self]
  · simp only [if_neg hc]
    refine ⟨fun _ => ?_, by simp⟩
    refine ⟨_, mapGet_set_self _ _ _, rfl, ?_⟩
    exact Nat.lt_add_of_pos_right (threatScore_pos threatType)

/-- Repeated `recordSuspiciousActivity` calls on a fresh manager: result of
the n-th consecutive call for one ip and one threat type (`(false, empty)`
when no call has happened yet). -/
def recordRepeat (ip threatType : String) (now : Nat) : Nat → Bool × IPBanManager
  | 0 => (false, emptyManager)
  | n + 1 => recordSuspiciousActivity (recordRepeat ip threatType now n).snd ip threatType now

/-- C1: `recordSuspiciousActivity` returns true iff, after this call's
increment, the score reaches 300 or the attempts reach 20, and in that case
the id is banned within the same call; six `"sql_injection"` calls (weight
50) go `false` five times then `true` with `isBanned` true immediately
after, and twenty `"invalid_input"` calls go `false` nineteen times then
`true` on the twentieth. -/
theorem recordSuspiciousActivity_threshold_spec (m : IPBanManager) (ip threatType : String)
    (now : Nat) :
    ((recordSuspiciousActivity m ip threatType now).fst = true ↔
      300 ≤
          ((mapGet m.suspiciousIPs ip).getD
              { attempts := 0, lastAttempt := now, score := 0, threats := [] }).score +
            threatScore threatType ∨
        20 ≤
          ((mapGet m.suspiciousIPs ip).getD
              { attempts := 0, lastAttempt := now, score := 0, threats := [] }).attempts + 1) ∧
    ((recordSuspiciousActivity m ip threatType now).fst = true →
      (isBanned (recordSuspiciousActivity m ip threatType now).snd ip now).fst = true) ∧
    (∀ k, k < 5 → (recordRepeat "203.0.113.5" "sql_injection" 0 (k + 1)).fst = false) ∧
    (recordRepeat "203.0.113.5" "sql_injection" 0 6).fst = true ∧
    (isBanned (recordRepeat "203.0.113.5" "sql_injection" 0 6).snd "203.0.113.5" 0).fst = true ∧
    (∀ k, k < 19 → (recordRepeat "203.0.113.6" "invalid_input" 0 (k + 1)).fst = false) ∧
    (recordRepeat "203.0.113.6" "invalid_input" 0 20).fst = true ∧
    (isBanned (recordRepeat "203.0.113.6" "invalid_input" 0 20).snd "203.0.113.6" 0).fst
      = true := by
  refine ⟨?_, ?_, by decide, by decide, by decide, by decide, by decide, by decide⟩
  · simp only [recordSuspiciousActivity]
    split_ifs with hc
    · simpa using hc
    · simpa using hc
  · simp only [recordSuspiciousActivity]
    split_ifs with hc
    · intro _
      have h60 : (0 : Int) < 60 := by decide
      have hlt : ¬(now + (60 : Int).toNat * 60000 < now) := by omega
      simp [banIP, isBanned, mapGet_set_self, h60, hlt]
    · simp

theorem mem_mapDelete_ne {α : Type} (l : List (String × α)) (k : String)
    (e : String × α) (he : e ∈ mapDelete l k) : e.1 ≠ k := by
  have h := List.mem_filter.mp he
  simpa using h.2

/-- C4: a ban created at time `now` with duration `D > 0` minutes reports
`isBanned = false` at any check strictly after `now + D` minutes; that
check removes the expired record (lazy expiry), so it no longer appears in
`getAllBanned()`. -/
theorem ban_lazy_expiry (m : IPBanManager) (ip reason : String) (D : Int) (now t : Nat)
    (hD : 0 < D) (ht : now + D.toNat * 60000 < t) :
    (isBanned (banIP m ip reason D now).snd ip t).fst = false ∧
    mapGet ((isBanned (banIP m ip reason D now).snd ip t).snd).bannedIPs ip = none ∧
    ∀ e ∈ getAllBanned ((isBanned (banIP m ip reason D now).snd ip t).snd), e.1 ≠ ip := by
  refine ⟨?_, ?_, ?_⟩
  · simp [banIP, isBanned, mapGet_set_self, hD, ht, unbanIP]
  · simp [banIP, isBanned, mapGet_set_self, hD, ht, unbanIP, mapGet_delete_self]
  · intro e he
    simp only [banIP, isBanned, mapGet_set_self, hD, ht, unbanIP, getAllBanned] at he
    simp only [if_pos ht, mapGet_set_self, Option.isSome_some, if_pos] at he
    exact mem_mapDelete_ne _ ip e (by simpa using he)

/-- Witness for `ban_lazy_expiry`: a 60-minute ban at time 0, checked one
millisecond after expiry. -/
theorem ban_lazy_expiry_witness :
    (isBanned (banIP emptyManager "1.2.3.4" "manual" 60 0).snd "1.2.3.4" 3600001).fst = false ∧
    mapGet ((isBanned (banIP emptyManager "1.2.3.4" "manual" 60 0).snd
        "1.2.3.4" 3600001).snd).bannedIPs "1.2.3.4" = none ∧
    ∀ e ∈ getAllBanned ((isBanned (banIP emptyManager "1.2.3.4" "manual" 60 0).snd
        "1.2.3.4" 3600001).snd), e.1 ≠ "1.2.3.4" :=
  ban_lazy_expiry emptyManager "1.2.3.4" "manual" 60 0 3600001 (by decide) (by decide)

/-! ## Claim C2: exclusivity of the suspicion and ban tables -/

/-- C2 counterexample: ban an id permanently, then record one low-weight
suspicious activity for the same id; `recordSuspiciousActivity` checks no
ban table, so the id now sits in both `bannedIPs` and `suspiciousIPs` at
once, refuting the claimed exclusivity invariant. -/
theorem exclusivity_counterexample :
    (mapGet ((recordSuspiciousActivity (banIP emptyManager "203.0.113.9" "manual" 0 0).snd
        "203.0.113.9" "invalid_input" 0).snd).bannedIPs "203.0.113.9").isSome = true ∧
    (mapGet ((recordSuspiciousActivity (banIP emptyManager "203.0.113.9" "manual" 0 0).snd
        "203.0.113.9" "invalid_input" 0).snd).suspiciousIPs "203.0.113.9").isSome = true := by
  decide

/-- One call on the `IPBanManager`, tagged with its clock reading, for
reasoning about operation sequences. -/
inductive SecOp where
  | ban (ip reason : String) (duration : Int) (now : Nat)
  | unban (ip : String)
  | record (ip threatType : String) (now : Nat)
  | check (ip : String) (now : Nat)
  | clean (now : Nat)

/-- The state after one `IPBanManager` call (returned values dropped). -/
def applyOp (m : IPBanManager) : SecOp → IPBanManager
  | .ban ip reason d now => (banIP m ip reason d now).snd
  | .unban ip => (unbanIP m ip).snd
  | .record ip t now => (recordSuspiciousActivity m ip t now).snd
  | .check ip now => (isBanned m ip now).snd
  | .clean now => cleanExpiredBans m now

/-- No id is simultaneously in the ban table and in the suspicion table. -/
def exclusive (m : IPBanManager) : Prop :=
  ∀ ip, mapGet m.bannedIPs ip = none ∨ mapGet m.suspiciousIPs ip = none

/-- The one precondition the amended invariant needs:
`recordSuspiciousActivity` is not invoked on a currently banned id (the
request pipeline guarantees this by checking the ban first). -/
def notBannedPre (m : IPBanManager) : SecOp → Prop
  | .record ip _ _ => mapGet m.bannedIPs ip = none
  | _ => True

theorem exclusive_promote {mb : List (String × BanInfo)}
    {ms : List (String × SuspiciousInfo)} (ip : String) (v : BanInfo)
    (h : ∀ q, q ≠ ip → mapGet mb q = none ∨ mapGet ms q = none) :
    exclusive ⟨mapSet mb ip v, mapDelete ms ip⟩ := by
  intro q
  by_cases hq : q = ip
  · subst hq
    exact Or.inr (mapGet_delete_self ms q)
  · rcases h q hq with hb | hs
    · exact Or.inl ((mapGet_set_ne mb ip q v hq).trans hb)
    · exact Or.inr ((mapGet_delete_ne ms ip q hq).trans hs)

/-- C2 amended: every ban of an id removes any suspicion record for that id
in the same step (promotion is atomic), and the mutual-exclusivity
invariant is preserved by every operation, provided
`recordSuspiciousActivity` is not invoked on a currently banned id — the
code performs no ban check there, so a banned id recorded below threshold
lands in both tables (see the counterexample). -/
theorem exclusivity_amended (m : IPBanManager) (op : SecOp) (ip reason : String)
    (d : Int) (now : Nat) (hex : exclusive m) (hpre : notBannedPre m op) :
    exclusive (applyOp m op) ∧
    mapGet ((banIP m ip reason d now).snd).suspiciousIPs ip = none := by
  refine ⟨?_, by simp [banIP, mapGet_delete_self]⟩
  cases op with
  | ban ip0 r0 d0 n0 =>
    simp only [applyOp, banIP]
    exact exclusive_promote ip0 _ (fun q _ => hex q)
  | unban ip0 =>
    simp only [applyOp, unbanIP]
    split_ifs with h
    · intro q
      by_cases hq : q = ip0
      · subst hq
        exact Or.inl (mapGet_delete_self _ _)
      · rcases hex q with hb | hs
        · exact Or.inl ((mapGet_delete_ne _ _ _ hq).trans hb)
        · exact Or.inr hs
    · exact hex
  | record ip0 t0 n0 =>
    simp only [applyOp, recordSuspiciousActivity]
    split_ifs with hc
    · apply exclusive_promote
      intro q hq
      rcases hex q with hb | hs
      · exact Or.inl hb
      · exact Or.inr ((mapGet_set_ne _ _ _ _ hq).trans hs)
    · intro q
      by_cases hq : q = ip0
      · subst hq
        exact Or.inl hpre
      · rcases hex q with hb | hs
        · exact Or.inl hb
        · exact Or.inr ((mapGet_set_ne _ _ _ _ hq).trans hs)
  | check ip0 n0 =>
    simp only [applyOp, isBanned]
    cases hg : mapGet m.bannedIPs ip0 with
    | none => simpa [hg] using hex
    | some info =>
      cases hee : info.expiresAt with
      | none =>
        simp only [hg, hee]
        exact hex
      | some e =>
        simp only [hg, hee]
        split_ifs with hlt
        · simp only [unbanIP]
          split_ifs with h
          · intro q
            by_cases hq : q = ip0
            · subst hq
              exact Or.inl (mapGet_delete_self _ _)
            · rcases hex q with hb | hs
              · exact Or.inl ((mapGet_delete_ne _ _ _ hq).trans hb)
              · exact Or.inr hs
          · exact hex
        · exact hex
  | clean n0 =>
    intro q
    rcases hex q with hb | hs
    · exact Or.inl (mapGet_filter_none _ _ _ hb)
    · exact Or.inr (mapGet_filter_none _ _ _ hs)

/-- Witness for `exclusivity_amended` on the empty manager and an `unban`
operation. -/
theorem exclusivity_amended_witness :
    exclusive (applyOp emptyManager (SecOp.unban "1.1.1.1")) ∧
    mapGet ((banIP emptyManager "2.2.2.2" "manual" 0 0).snd).suspiciousIPs "2.2.2.2" = none :=
  exclusivity_amended emptyManager (SecOp.unban "1.1.1.1") "2.2.2.2" "manual" 0 0
    (fun _ => Or.inl rfl) trivial

/-! ## SecurityAnalytics (src/security/monitoring/analytics.js)

Only the parts that `recordRequest`, `addToTimeline` and
`getRecentEvents` read or write are embedded: the `requests` counters and
the `timeline`.  The `threats` counters and the `performance` samples are
touched by other methods only. -/

/-- One timeline event as built by `recordRequest`:
`{ type, ip, endpoint, method, timestamp }`. -/
structure TimelineEntry where
  type : String
  ip : String
  endpoint : String
  method : String
  timestamp : Nat
deriving Repr, DecidableEq

/-- The request fields `recordRequest` reads: `req.ip`, `req.path`,
`req.method`. -/
structure RequestMeta where
  ip : String
  path : String
  method : String
deriving Repr, DecidableEq

/-- The `metrics.requests` object: totals plus the per-endpoint map. -/
structure RequestsMetrics where
  total : Nat
  blocked : Nat
  suspicious : Nat
  byEndpoint : List (String × Nat)
deriving Repr, DecidableEq

/-- The analytics state: request counters and the timeline array. -/
structure SecurityAnalytics where
  requests : RequestsMetrics
  timeline : List TimelineEntry
deriving Repr, DecidableEq

/-- The state of a freshly constructed `SecurityAnalytics`. -/
def initAnalytics : SecurityAnalytics := ⟨⟨0, 0, 0, []⟩, []⟩

/-- `addToTimeline(event)`: push, then `shift()` (drop the oldest entry)
when the length exceeds 500. -/
def addToTimeline (timeline : List TimelineEntry) (event : TimelineEntry) :
    List TimelineEntry :=
  let timeline1 := timeline ++ [event]
  if 500 < timeline1.length then timeline1.drop 1 else timeline1

/-- The timeline event `recordRequest` builds from a request. -/
def timelineEntryOf (req : RequestMeta) (blocked suspicious : Bool) (now : Nat) :
    TimelineEntry :=
  { type := if blocked then "blocked" else if suspicious then "suspicious" else "normal"
    ip := req.ip
    endpoint := req.path
    method := req.method
    timestamp := now }

/-- `recordRequest(req, blocked = false, suspicious = false)`: bump the
totals and the per-endpoint counter, then append a timeline event. -/
def recordRequest (a : SecurityAnalytics) (req : RequestMeta) (blocked suspicious : Bool)
    (now : Nat) : SecurityAnalytics :=
  { requests :=
      { total := a.requests.total + 1
        blocked := a.requests.blocked + (if blocked then 1 else 0)
        suspicious := a.requests.suspicious + (if suspicious then 1 else 0)
        byEndpoint :=
          mapSet a.requests.byEndpoint req.path
            ((mapGet a.requests.byEndpoint req.path).getD 0 + 1) }
    timeline := addToTimeline a.timeline (timelineEntryOf req blocked suspicious now) }

/-- `arr.slice(-limit)` on a JavaScript array: the last `limit` elements,
except that `slice(-0)` is `slice(0)`, the whole array. -/
def jsSliceLast {α : Type} (l : List α) (limit : Nat) : List α :=
  if limit = 0 then l else l.drop (l.length - limit)

/-- `getRecentEvents(limit = 50)`: `timeline.slice(-limit).reverse()`. -/
def getRecentEvents (a : SecurityAnalytics) (limit : Nat) : List TimelineEntry :=
  (jsSliceLast a.timeline limit).reverse

/-- One `recordRequest` call with its arguments and clock reading. -/
structure RequestCall where
  meta : RequestMeta
  blocked : Bool
  suspicious : Bool
  now : Nat
deriving Repr, DecidableEq

/-- The timeline event a given `recordRequest` call appends. -/
def callEntry (c : RequestCall) : TimelineEntry :=
  timelineEntryOf c.meta c.blocked c.suspicious c.now

/-- A sequence of `recordRequest` calls, oldest first. -/
def runRequests (a : SecurityAnalytics) (calls : List RequestCall) : SecurityAnalytics :=
  calls.foldl (fun acc c => recordRequest acc c.meta c.blocked c.suspicious c.now) a

theorem addToTimeline_of_lt (tl : List TimelineEntry) (e : TimelineEntry)
    (h : tl.length < 500) : addToTimeline tl e = tl ++ [e] := by
  unfold addToTimeline
  rw [if_neg (by simp; omega)]

theorem addToTimeline_of_eq (tl : List TimelineEntry) (e : TimelineEntry)
    (h : tl.length = 500) : addToTimeline tl e = (tl ++ [e]).drop 1 := by
  unfold addToTimeline
  rw [if_pos (by simp [h])]

theorem foldl_addToTimeline (es : List TimelineEntry) :
    ∀ tl : List TimelineEntry, tl.length ≤ 500 →
      es.foldl addToTimeline tl = (tl ++ es).drop ((tl ++ es).length - 500) := by
  induction es with
  | nil =>
    intro tl h
    simp [Nat.sub_eq_zero_of_le h]
  | cons e es ih =>
    intro tl h
    rw [List.foldl_cons]
    by_cases h5 : tl.length < 500
    · rw [addToTimeline_of_lt tl e h5, ih (tl ++ [e]) (by simp; omega)]
      simp [List.append_assoc]
    · have hlen : tl.length = 500 := by omega
      rw [addToTimeline_of_eq tl e hlen, ih ((tl ++ [e]).drop 1) (by simp [hlen])]
      have hidx : (((tl ++ [e]).drop 1) ++ es).length - 500 = es.length := by
        simp [hlen]
      have hle : 1 ≤ (tl ++ [e]).length := by
        simp only [List.length_append, List.length_cons, List.length_nil]
        omega
      have hA : ((tl ++ [e]).drop 1) ++ es = (tl ++ e :: es).drop 1 := by
        rw [List.append_cons tl e es]
        exact (List.drop_append_of_le_length hle).symm
      rw [hidx, hA, List.drop_drop]
      have hidx2 : (tl ++ e :: es).length - 500 = 1 + es.length := by
        simp [hlen]
        omega
      rw [hidx2]

theorem runRequests_timeline (calls : List RequestCall) :
    ∀ a : SecurityAnalytics,
      (runRequests a calls).timeline = (calls.map callEntry).foldl addToTimeline a.timeline := by
  induction calls with
  | nil => intro a; rfl
  | cons c calls ih =>
    intro a
    simpa [runRequests, callEntry] using ih (recordRequest a c.meta c.blocked c.suspicious c.now)

/-- C8: after more than 500 `recordRequest` calls the timeline holds
exactly the 500 most recent events (older ones evicted by the ring
buffer), and `getRecentEvents(500)` returns exactly those 500 entries,
most-recent-first. -/
theorem timeline_ring_buffer (calls : List RequestCall) (h : 500 < calls.length) :
    (runRequests initAnalytics calls).timeline
      = (calls.map callEntry).drop (calls.length - 500) ∧
    (runRequests initAnalytics calls).timeline.length = 500 ∧
    getRecentEvents (runRequests initAnalytics calls) 500
      = ((calls.map callEntry).drop (calls.length - 500)).reverse := by
  have htl : (runRequests initAnalytics calls).timeline
      = (calls.map callEntry).drop (calls.length - 500) := by
    rw [runRequests_timeline]
    rw [foldl_addToTimeline _ _ (by simp [initAnalytics])]
    simp [initAnalytics]
  have hlen : (runRequests initAnalytics calls).timeline.length = 500 := by
    rw [htl]
    simp
    omega
  refine ⟨htl, hlen, ?_⟩
  unfold getRecentEvents jsSliceLast
  rw [if_neg (by decide), hlen, Nat.sub_self, List.drop_zero, htl]

/-- A concrete request for the ring-buffer witness. -/
def exCall : RequestCall :=
  { meta := { ip := "10.0.0.1", path := "/api/weather", method := "GET" }
    blocked := false
    suspicious := false
    now := 0 }

/-- Witness for `timeline_ring_buffer`: 501 identical requests. -/
theorem timeline_ring_buffer_witness :
    500 < (List.replicate 501 exCall).length ∧
    ((runRequests initAnalytics (List.replicate 501 exCall)).timeline
        = ((List.replicate 501 exCall).map callEntry).drop
            ((List.replicate 501 exCall).length - 500) ∧
      (runRequests initAnalytics (List.replicate 501 exCall)).timeline.length = 500 ∧
      getRecentEvents (runRequests initAnalytics (List.replicate 501 exCall)) 500
        = (((List.replicate 501 exCall).map callEntry).drop
            ((List.replicate 501 exCall).length - 500)).reverse) :=
  ⟨by rw [List.length_replicate]; omega,
   timeline_ring_buffer (List.replicate 501 exCall) (by rw [List.length_replicate]; omega)⟩

/-! ## POST /api/security/ban (src/security/routes/securityRoutes.js) -/

/-- The request body `{ ip, reason, duration }` of the ban route; a field
missing from the JSON body is `none` (JavaScript `undefined`). -/
structure BanRequestBody where
  ip : Option String
  reason : Option String
  duration : Option Int
deriving Repr, DecidableEq

/-- The handler's outcome: HTTP 400 `{ success: false, error: 'IP address
required' }`, or HTTP 200 `{ success: true, data }` carrying the ban
record (the catch-all 500 branch is unreachable in the embedded model). -/
inductive BanResponse where
  | badRequest
  | ok (banInfo : BanInfo)
deriving Repr, DecidableEq

/-- `reason || 'Manual ban'`: a missing or empty (falsy) reason falls back
to the default string. -/
def effectiveReason (b : BanRequestBody) : String :=
  match b.reason with
  | some r => if r = "" then "Manual ban" else r
  | none => "Manual ban"

/-- `duration || 0`: a missing duration becomes 0, and `0 || 0` is `0`, so
present integer durations — negative ones included — pass through
unchanged. -/
def effectiveDuration (b : BanRequestBody) : Int :=
  b.duration.getD 0

/-- The POST `/ban` handler: reject with 400 only when `ip` is missing or
empty (the `!ip` test); otherwise call
`banIP(ip, reason || 'Manual ban', duration || 0)` and answer 200. -/
def postBanHandler (m : IPBanManager) (b : BanRequestBody) (now : Nat) :
    BanResponse × IPBanManager :=
  match b.ip with
  | none => (.badRequest, m)
  | some ip =>
      if ip = "" then (.badRequest, m)
      else
        let r := banIP m ip (effectiveReason b) (effectiveDuration b) now
        (.ok r.fst, r.snd)

/-- C9 counterexample: a ban request with `duration = -5` is not rejected
with 400 — `-5` is truthy, so `duration || 0` keeps it, `banIP` is invoked
and a ban record is stored. -/
theorem postBan_negative_duration_counterexample :
    (postBanHandler emptyManager
        { ip := some "1.2.3.4", reason := some "test", duration := some (-5) } 0).fst
      ≠ BanResponse.badRequest ∧
    (mapGet (postBanHandler emptyManager
        { ip := some "1.2.3.4", reason := some "test", duration := some (-5) } 0).snd.bannedIPs
        "1.2.3.4").isSome = true := by
  decide

/-- C9 amended: the handler rejects with 400, without touching the ban
store, exactly when `ip` is missing or empty; a negative duration is not
validated — the request reaches `banIP`, which stores a permanent ban
(`expiresAt = null`) for it. -/
theorem postBan_validation_amended (m : IPBanManager) (b : BanRequestBody) (now : Nat) :
    ((b.ip = none ∨ b.ip = some "") →
      postBanHandler m b now = (BanResponse.badRequest, m)) ∧
    (∀ ip d, b.ip = some ip → ip ≠ "" → b.duration = some d → d < 0 →
      (postBanHandler m b now).fst
          = BanResponse.ok (banIP m ip (effectiveReason b) d now).fst ∧
      (banIP m ip (effectiveReason b) d now).fst.expiresAt = none ∧
      (mapGet ((postBanHandler m b now).snd).bannedIPs ip).isSome = true) := by
  constructor
  · rintro (h | h) <;> simp [postBanHandler, h]
  · intro ip d hip hne hd hneg
    have hdur : effectiveDuration b = d := by simp [effectiveDuration, hd]
    have hpos : ¬(0 : Int) < d := by omega
    simp only [postBanHandler, hip, if_neg hne]
    refine ⟨by rw [hdur], by simp [banIP, hpos], ?_⟩
    rw [hdur]
    simp [banIP, mapGet_set_self]

/-! ## Threat detection (src/security/utils/threatDetection.js)

`ATTACK_PATTERNS` is a fixed, ordered table of categories, each holding an
ordered list of compiled regexes, every one carrying the `g` flag — so
each regex object owns a mutable `lastIndex` cursor.  A compiled regex's
matching itself is pure; the embedding keeps it abstract as a function
`exec input start` returning the end position and fragment of the first
match at or after `start` (the behaviour of `RegExp.prototype.exec` on a
global regex), and threads `lastIndex` explicitly.  A freshly compiled
regex has `lastIndex = 0`. -/

/-- A compiled global (`g`-flag) regex: its `toString()` source, its pure
matcher, and its mutable `lastIndex`. -/
structure GRegex where
  source : String
  exec : String → Nat → Option (Nat × String)
  lastIndex : Nat

/-- `pattern.test(input)` on a global regex: matching starts at
`lastIndex`; on success `lastIndex` moves to the end of the match, on
failure it resets to 0. -/
def regexTest (r : GRegex) (input : String) : Bool × GRegex :=
  match r.exec input r.lastIndex with
  | some (e, _) => (true, { r with lastIndex := e })
  | none => (false, { r with lastIndex := 0 })

/-- `input.match(pattern)` on a global regex: the call first sets
`lastIndex` to 0, gathers matches from the start, and its final failing
exec leaves `lastIndex` at 0; `detectThreats` consumes only the first
fragment, `[0]`. -/
def stringMatchFirst (r : GRegex) (input : String) : Option String × GRegex :=
  (match r.exec input 0 with
   | some (_, frag) => some frag
   | none => none,
   { r with lastIndex := 0 })

/-- One element of the returned `threats` array:
`{ type, pattern, paramName, match }`. -/
structure ThreatHit where
  type : String
  pattern : String
  paramName : String
  matched : Option String
deriving Repr, DecidableEq

/-- The inner loop of `detectThreats` over one category's pattern list:
the first pattern whose `test` succeeds contributes the category's single
threat object and stops the category (`break`). -/
def detectCategory (input paramName ttype : String) :
    List GRegex → Option ThreatHit × List GRegex
  | [] => (none, [])
  | r :: rs =>
      let t := regexTest r input
      if t.fst then
        let mr := stringMatchFirst t.snd input
        (some { type := ttype, pattern := r.source, paramName := paramName,
                matched := mr.fst },
         mr.snd :: rs)
      else
        let rest := detectCategory input paramName ttype rs
        (rest.fst, t.snd :: rest.snd)

/-- The outer loop of `detectThreats` over the ordered category table:
detection continues across categories, so several types can be reported
for one input. -/
def detectThreatsTable (input paramName : String) :
    List (String × List GRegex) → List ThreatHit × List (String × List GRegex)
  | [] => ([], [])
  | (ttype, rs) :: cats =>
      let c := detectCategory input paramName ttype rs
      let rest := detectThreatsTable input paramName cats
      ((match c.fst with
        | some h => [h]
        | none => []) ++ rest.fst,
       (ttype, c.snd) :: rest.snd)

/-- The value `detectThreats` returns:
`{ threats, isMalicious: threats.length > 0 }`. -/
structure DetectResult where
  threats : List ThreatHit
  isMalicious : Bool
deriving Repr, DecidableEq

/-- `detectThreats(input, paramName = 'unknown')`: the falsy guard
(`!input`; the empty string is falsy, and the `typeof` check is enforced
by the `String` type here) returns no threats; otherwise one pass over the
pattern table.  The table is threaded as state because `test` mutates each
global regex's `lastIndex`. -/
def detectThreats (tbl : List (String × List GRegex)) (input paramName : String) :
    DetectResult × List (String × List GRegex) :=
  if input = "" then (⟨[], false⟩, tbl)
  else
    let r := detectThreatsTable input paramName tbl
    (⟨r.fst, !r.fst.isEmpty⟩, r.snd)

/-- A regex whose `lastIndex` cursor sits at 0, as after compilation. -/
def cleanRegex (r : GRegex) : Bool := r.lastIndex == 0

/-- Every regex of the table has `lastIndex = 0`. -/
def cleanTable (tbl : List (String × List GRegex)) : Bool :=
  tbl.all (fun c => c.2.all cleanRegex)

/-- A sequence of `detectThreats` calls, threading the pattern table. -/
def runDetect (tbl : List (String × List GRegex)) (calls : List (String × String)) :
    List (String × List GRegex) :=
  calls.foldl (fun t c => (detectThreats t c.1 c.2).snd) tbl

theorem gregex_reset_eq (r : GRegex) (h : r.lastIndex = 0) :
    { r with lastIndex := 0 } = r := by
  cases r
  simp_all

theorem detectCategory_state (input paramName ttype : String) :
    ∀ rs : List GRegex, rs.all cleanRegex = true →
      (detectCategory input paramName ttype rs).snd = rs := by
  intro rs
  induction rs with
  | nil => intro _; rfl
  | cons r rs ih =>
    intro h
    rw [List.all_cons, Bool.and_eq_true] at h
    have hr : r.lastIndex = 0 := by simpa [cleanRegex] using h.1
    simp only [detectCategory, regexTest]
    cases hexec : r.exec input r.lastIndex with
    | some p =>
      obtain ⟨e, frag⟩ := p
      simp only [stringMatchFirst, if_pos]
      rw [List.cons.injEq]
      exact ⟨gregex_reset_eq r hr, rfl⟩
    | none =>
      simp only [Bool.false_eq_true, if_false]
      rw [List.cons.injEq]
      exact ⟨gregex_reset_eq r hr, ih h.2⟩

theorem detectThreatsTable_state (input paramName : String) :
    ∀ tbl : List (String × List GRegex), cleanTable tbl = true →
      (detectThreatsTable input paramName tbl).snd = tbl := by
  intro tbl
  induction tbl with
  | nil => intro _; rfl
  | cons c cats ih =>
    intro h
    obtain ⟨ttype, rs⟩ := c
    rw [cleanTable, List.all_cons, Bool.and_eq_true] at h
    simp only [detectThreatsTable]
    rw [List.cons.injEq]
    exact ⟨by rw [detectCategory_state input paramName ttype rs h.1], ih h.2⟩

theorem detectThreats_state (tbl : List (String × List GRegex)) (input paramName : String)
    (h : cleanTable tbl = true) : (detectThreats tbl input paramName).snd = tbl := by
  unfold detectThreats
  by_cases he : input = ""
  · rw [if_pos he]
  · rw [if_neg he]
    exact detectThreatsTable_state input paramName tbl h

theorem runDetect_state (tbl : List (String × List GRegex)) (h : cleanTable tbl = true) :
    ∀ calls : List (String × String), runDetect tbl calls = tbl := by
  intro calls
  induction calls with
  | nil => rfl
  | cons c cs ih =>
    show runDetect (detectThreats tbl c.1 c.2).snd cs = tbl
    rw [detectThreats_state tbl c.1 c.2 h]
    exact ih

/-- C3: the threat detector is deterministic and pure.  Starting from a
freshly compiled pattern table (all `lastIndex = 0`), every
`detectThreats` call leaves the table unchanged — `test`'s cursor moves
are undone by the failure reset and by `match`'s reset-to-0 — so
`detect(s, f)` returns the same threat list (same order and content) and
the same `isMalicious` flag no matter which calls ran before it. -/
theorem detectThreats_deterministic (tbl : List (String × List GRegex))
    (prior : List (String × String)) (input paramName : String)
    (h : cleanTable tbl = true) :
    (detectThreats (runDetect tbl prior) input paramName).fst
        = (detectThreats tbl input paramName).fst ∧
    (detectThreats tbl input paramName).snd = tbl := by
  rw [runDetect_state tbl h prior]
  exact ⟨rfl, detectThreats_state tbl input paramName h⟩

/-- A small concrete pattern table for the determinism witness: one
category with one global regex matching the keyword `SELECT` at the start
of the input. -/
def exDetectTable : List (String × List GRegex) :=
  [("sql_injection",
    [{ source := "keyword-g"
       exec := fun s i => if s = "SELECT" ∧ i = 0 then some (6, "SELECT") else none
       lastIndex := 0 }])]

/-- Witness for `detectThreats_deterministic`: a prior matching call does
not change what a second identical call returns. -/
theorem detectThreats_deterministic_witness :
    cleanTable exDetectTable = true ∧
    ((detectThreats (runDetect exDetectTable [("SELECT", "query.q")]) "SELECT" "query.q").fst
        = (detectThreats exDetectTable "SELECT" "query.q").fst ∧
      (detectThreats exDetectTable "SELECT" "query.q").snd = exDetectTable) :=
  ⟨rfl, detectThreats_deterministic exDetectTable [("SELECT", "query.q")] "SELECT" "query.q" rfl⟩
